import Mathlib

/-
Verification of the zone dwell-time tracking subsystem of
examples/time_in_zone/ultralytics_webcam.py.

The Python core is the Timer class: a dict tracker_id2start_time mapping
tracker ids to the datetime at which they were first detected, and the
method update_with_detections, which reads the clock once, lazily inserts
the current time for unseen ids, and reports now minus the stored start
timestamp for every detection of the call, in input order.  The main loop
keeps one Timer per polygon zone and feeds each timer only the detections
whose positions trigger that zone.

Embedding choices: tracker ids are integers; timestamps and durations are
rationals (the Python code uses datetime and float seconds); the Python
dict is an insertion-ordered association list whose keys stay distinct
because the code only ever inserts a key that is absent.  The single
datetime.now() call per update is the parameter now.
-/

namespace AIimgTimeInZone

/-- A tracked detection as consumed by the per-zone loop of main: a tracker
identity assigned by the upstream tracker, a position, and a class id.
Position and class are passed through; the timer only reads tracker ids. -/
structure Detection where
  tracker_id : ℤ
  x : ℚ
  y : ℚ
  class_id : ℤ

/-- Python dict lookup on the insertion-ordered association list that models
tracker_id2start_time: the start timestamp stored for a tracker id, if any. -/
def lookupStart : List (ℤ × ℚ) → ℤ → Option ℚ
  | [], _ => none
  | (k, v) :: rest, tid => if k = tid then some v else lookupStart rest tid

/-- Python dict insertion of a key that is absent: appended at the end, in
insertion order. -/
def insertStart (m : List (ℤ × ℚ)) (tid : ℤ) (t : ℚ) : List (ℤ × ℚ) :=
  m ++ [(tid, t)]

/-- The Timer class: its only attribute is the dict tracker_id2start_time
mapping tracker ids to the time at which they were first detected. -/
structure Timer where
  tracker_id2start_time : List (ℤ × ℚ)

/-- One iteration of the loop in Timer.update_with_detections: if the id is
not in the dict, store the current time for it; then read its start time
back from the dict and report the duration now minus start.  The getD
default is unreachable: after the conditional insert the key is present. -/
def updateStep (m : List (ℤ × ℚ)) (now : ℚ) (tid : ℤ) : List (ℤ × ℚ) × ℚ :=
  let m1 := if (lookupStart m tid).isSome then m else insertStart m tid now
  (m1, now - ((lookupStart m1 tid).getD now))

/-- The loop of Timer.update_with_detections over detections.tracker_id,
threading the dict and accumulating the per-detection durations in input
order. -/
def updateLoop (m : List (ℤ × ℚ)) (now : ℚ) : List ℤ → List (ℤ × ℚ) × List ℚ
  | [] => (m, [])
  | tid :: rest =>
    let p := updateStep m now tid
    let q := updateLoop p.1 now rest
    (q.1, p.2 :: q.2)

/-- Timer.update_with_detections: current_time = datetime.now() is read once
and modelled by the parameter now; the loop body lazily inserts unseen ids
and computes each duration against that single reading.  Returns the updated
timer and the durations attached to the detections, in input order. -/
def Timer.update_with_detections (tm : Timer) (now : ℚ) (ids : List ℤ) :
    Timer × List ℚ :=
  (⟨(updateLoop tm.tracker_id2start_time now ids).1⟩,
    (updateLoop tm.tracker_id2start_time now ids).2)

/-- A sequence of update calls on one timer: each call is a clock reading
paired with the tracker ids present in the input of that call. -/
def runCalls (tm : Timer) : List (ℚ × List ℤ) → Timer
  | [] => tm
  | c :: rest => runCalls (tm.update_with_detections c.1 c.2).1 rest

/-- The per-zone body of the main loop for one frame: each zone selects the
detections its trigger accepts, keeping relative order, and feeds the
tracker ids of that in-zone subset to its own timer.  Yields per zone the
updated timer and the duration array. -/
def processFrame (zoneTimers : List ((Detection → Bool) × Timer))
    (dets : List Detection) (now : ℚ) : List (Timer × List ℚ) :=
  zoneTimers.map (fun zt =>
    zt.2.update_with_detections now ((dets.filter zt.1).map Detection.tracker_id))

/- Basic lemmas about the dict model. -/

theorem lookupStart_append_some {m1 : List (ℤ × ℚ)} {k : ℤ} {v : ℚ}
    (m2 : List (ℤ × ℚ)) (h : lookupStart m1 k = some v) :
    lookupStart (m1 ++ m2) k = some v := by
  induction m1 with
  | nil => simp [lookupStart] at h
  | cons p rest ih =>
    obtain ⟨a, b⟩ := p
    by_cases hak : a = k
    · simpa [lookupStart, hak] using h
    · simp only [lookupStart, hak, if_false] at h ⊢
      exact ih h

theorem lookupStart_append_none {m1 : List (ℤ × ℚ)} {k : ℤ}
    (m2 : List (ℤ × ℚ)) (h : lookupStart m1 k = none) :
    lookupStart (m1 ++ m2) k = lookupStart m2 k := by
  induction m1 with
  | nil => simp [lookupStart]
  | cons p rest ih =>
    obtain ⟨a, b⟩ := p
    by_cases hak : a = k
    · simp [lookupStart, hak] at h
    · simp only [lookupStart, hak, if_false] at h ⊢
      exact ih h

theorem lookupStart_insertStart_self {m : List (ℤ × ℚ)} {tid : ℤ} {t : ℚ}
    (h : lookupStart m tid = none) :
    lookupStart (insertStart m tid t) tid = some t := by
  rw [insertStart, lookupStart_append_none _ h]
  simp [lookupStart]

/- Lemmas about one loop iteration. -/

theorem updateStep_snd (m : List (ℤ × ℚ)) (now : ℚ) (tid : ℤ) :
    (updateStep m now tid).2 = now - ((lookupStart m tid).getD now) := by
  rcases h : lookupStart m tid with _ | s
  · simp [updateStep, h, lookupStart_insertStart_self h]
  · simp [updateStep, h]

theorem updateStep_fst_of_some {m : List (ℤ × ℚ)} {tid : ℤ} {s : ℚ}
    (now : ℚ) (h : lookupStart m tid = some s) :
    (updateStep m now tid).1 = m := by
  simp [updateStep, h]

theorem updateStep_fst_of_none {m : List (ℤ × ℚ)} {tid : ℤ}
    (now : ℚ) (h : lookupStart m tid = none) :
    (updateStep m now tid).1 = insertStart m tid now := by
  simp [updateStep, h]

theorem lookupStart_updateStep_of_some {m : List (ℤ × ℚ)} {k : ℤ} {s : ℚ}
    (now : ℚ) (tid : ℤ) (h : lookupStart m k = some s) :
    lookupStart (updateStep m now tid).1 k = some s := by
  rcases ht : lookupStart m tid with _ | u
  · rw [updateStep_fst_of_none now ht, insertStart]
    exact lookupStart_append_some _ h
  · rw [updateStep_fst_of_some now ht]
    exact h

theorem lookupStart_updateStep_ne {m : List (ℤ × ℚ)} {k tid : ℤ}
    (now : ℚ) (hne : tid ≠ k) :
    lookupStart (updateStep m now tid).1 k = lookupStart m k := by
  rcases ht : lookupStart m tid with _ | u
  · rw [updateStep_fst_of_none now ht, insertStart]
    rcases hk : lookupStart m k with _ | v
    · rw [lookupStart_append_none _ hk]
      simp [lookupStart, hne]
    · exact lookupStart_append_some _ hk
  · rw [updateStep_fst_of_some now ht]

theorem lookupStart_updateStep_self_of_none {m : List (ℤ × ℚ)} {tid : ℤ}
    (now : ℚ) (h : lookupStart m tid = none) :
    lookupStart (updateStep m now tid).1 tid = some now := by
  rw [updateStep_fst_of_none now h]
  exact lookupStart_insertStart_self h

theorem lookupStart_updateStep_getD (m : List (ℤ × ℚ)) (now : ℚ) (tid k : ℤ) :
    ((lookupStart (updateStep m now tid).1 k).getD now)
      = ((lookupStart m k).getD now) := by
  rcases hk : lookupStart m k with _ | v
  · by_cases hne : tid = k
    · subst hne
      rcases ht : lookupStart m tid with _ | u
      · rw [lookupStart_updateStep_self_of_none now ht]
        simp [ht]
      · rw [ht] at hk; cases hk
    · rw [lookupStart_updateStep_ne now hne, hk]
  · rw [lookupStart_updateStep_of_some now tid hk]

theorem lookupStart_updateLoop_getD (now : ℚ) (k : ℤ) :
    ∀ (ids : List ℤ) (m : List (ℤ × ℚ)),
      ((lookupStart (updateLoop m now ids).1 k).getD now)
        = ((lookupStart m k).getD now)
  | [], m => rfl
  | tid :: rest, m => by
    show ((lookupStart (updateLoop (updateStep m now tid).1 now rest).1 k).getD now) = _
    rw [lookupStart_updateLoop_getD now k rest (updateStep m now tid).1,
      lookupStart_updateStep_getD]

/- Lemmas about the whole loop. -/

theorem updateLoop_snd_eq_map (now : ℚ) :
    ∀ (ids : List ℤ) (m : List (ℤ × ℚ)),
      (updateLoop m now ids).2
        = ids.map (fun tid => now - ((lookupStart m tid).getD now))
  | [], _ => rfl
  | tid :: rest, m => by
    show ((updateStep m now tid).2
        :: (updateLoop (updateStep m now tid).1 now rest).2) = _
    rw [updateLoop_snd_eq_map now rest (updateStep m now tid).1, updateStep_snd,
      List.map_cons]
    congr 1
    exact List.map_congr_left fun t _ => by rw [lookupStart_updateStep_getD]

theorem lookupStart_updateLoop_of_some (now : ℚ) {k : ℤ} {s : ℚ} :
    ∀ (ids : List ℤ) (m : List (ℤ × ℚ)), lookupStart m k = some s →
      lookupStart (updateLoop m now ids).1 k = some s
  | [], _, h => h
  | tid :: rest, m, h => by
    show lookupStart (updateLoop (updateStep m now tid).1 now rest).1 k = some s
    exact lookupStart_updateLoop_of_some now rest _
      (lookupStart_updateStep_of_some now tid h)

theorem lookupStart_updateLoop_of_none_mem (now : ℚ) {k : ℤ} :
    ∀ (ids : List ℤ) (m : List (ℤ × ℚ)), lookupStart m k = none → k ∈ ids →
      lookupStart (updateLoop m now ids).1 k = some now
  | [], _, _, hmem => absurd hmem (List.not_mem_nil _)
  | tid :: rest, m, h, hmem => by
    show lookupStart (updateLoop (updateStep m now tid).1 now rest).1 k = some now
    by_cases hk : tid = k
    · subst hk
      exact lookupStart_updateLoop_of_some now rest _
        (lookupStart_updateStep_self_of_none now h)
    · have hmem2 : k ∈ rest := by
        rcases List.mem_cons.mp hmem with h1 | h1
        · exact absurd h1.symm hk
        · exact h1
      have h2 : lookupStart (updateStep m now tid).1 k = none := by
        rw [lookupStart_updateStep_ne now hk]; exact h
      exact lookupStart_updateLoop_of_none_mem now rest _ h2 hmem2

theorem lookupStart_updateLoop_of_none_notmem (now : ℚ) {k : ℤ} :
    ∀ (ids : List ℤ) (m : List (ℤ × ℚ)), lookupStart m k = none → k ∉ ids →
      lookupStart (updateLoop m now ids).1 k = none
  | [], _, h, _ => h
  | tid :: rest, m, h, hmem => by
    show lookupStart (updateLoop (updateStep m now tid).1 now rest).1 k = none
    have hk : tid ≠ k := by
      rintro rfl
      exact hmem (List.mem_cons_self _ _)
    have h2 : lookupStart (updateStep m now tid).1 k = none := by
      rw [lookupStart_updateStep_ne now hk]; exact h
    exact lookupStart_updateLoop_of_none_notmem now rest _ h2
      (fun hr => hmem (List.mem_cons_of_mem _ hr))

theorem lookupStart_updateLoop_notmem (now : ℚ) {k : ℤ} (ids : List ℤ)
    (m : List (ℤ × ℚ)) (hmem : k ∉ ids) :
    lookupStart (updateLoop m now ids).1 k = lookupStart m k := by
  rcases h : lookupStart m k with _ | s
  · exact lookupStart_updateLoop_of_none_notmem now ids m h hmem
  · exact lookupStart_updateLoop_of_some now ids m h

theorem updateLoop_fst_append (now : ℚ) :
    ∀ (ids : List ℤ) (m : List (ℤ × ℚ)),
      ∃ ext, (updateLoop m now ids).1 = m ++ ext
  | [], m => ⟨[], by simp [updateLoop]⟩
  | tid :: rest, m => by
    show ∃ ext, (updateLoop (updateStep m now tid).1 now rest).1 = m ++ ext
    obtain ⟨e2, he2⟩ := updateLoop_fst_append now rest (updateStep m now tid).1
    rcases ht : lookupStart m tid with _ | u
    · refine ⟨[(tid, now)] ++ e2, ?_⟩
      rw [he2, updateStep_fst_of_none now ht, insertStart, List.append_assoc]
    · refine ⟨e2, ?_⟩
      rw [he2, updateStep_fst_of_some now ht]

theorem updateLoop_length_le (now : ℚ) (ids : List ℤ) (m : List (ℤ × ℚ)) :
    m.length ≤ (updateLoop m now ids).1.length := by
  obtain ⟨ext, hext⟩ := updateLoop_fst_append now ids m
  rw [hext, List.length_append]
  exact Nat.le_add_right _ _

/- Lemmas about sequences of calls. -/

theorem lookupStart_runCalls_of_some {k : ℤ} {s : ℚ} :
    ∀ (calls : List (ℚ × List ℤ)) (tm : Timer),
      lookupStart tm.tracker_id2start_time k = some s →
      lookupStart (runCalls tm calls).tracker_id2start_time k = some s
  | [], _, h => h
  | c :: rest, tm, h => by
    show lookupStart
        (runCalls (tm.update_with_detections c.1 c.2).1 rest).tracker_id2start_time
        k = some s
    exact lookupStart_runCalls_of_some rest _
      (lookupStart_updateLoop_of_some c.1 c.2 _ h)

theorem lookupStart_runCalls_notmem {k : ℤ} :
    ∀ (calls : List (ℚ × List ℤ)) (tm : Timer), (∀ c ∈ calls, k ∉ c.2) →
      lookupStart (runCalls tm calls).tracker_id2start_time k
        = lookupStart tm.tracker_id2start_time k
  | [], _, _ => rfl
  | c :: rest, tm, hmem => by
    show lookupStart
        (runCalls (tm.update_with_detections c.1 c.2).1 rest).tracker_id2start_time
        k = _
    rw [lookupStart_runCalls_notmem rest _
      (fun d hd => hmem d (List.mem_cons_of_mem _ hd))]
    exact lookupStart_updateLoop_notmem c.1 c.2 _
      (hmem c (List.mem_cons_self _ _))

theorem runCalls_length_le :
    ∀ (calls : List (ℚ × List ℤ)) (tm : Timer),
      tm.tracker_id2start_time.length
        ≤ (runCalls tm calls).tracker_id2start_time.length
  | [], _ => Nat.le_refl _
  | c :: rest, tm => by
    show tm.tracker_id2start_time.length
        ≤ (runCalls (tm.update_with_detections c.1 c.2).1 rest).tracker_id2start_time.length
    exact Nat.le_trans (updateLoop_length_le c.1 c.2 _)
      (runCalls_length_le rest (tm.update_with_detections c.1 c.2).1)

theorem updateLoop_snd_getElem (now : ℚ) (ids : List ℤ) (m : List (ℤ × ℚ))
    {i : ℕ} {tid : ℤ} (hi : ids[i]? = some tid) :
    (updateLoop m now ids).2[i]? = some (now - ((lookupStart m tid).getD now)) := by
  rw [updateLoop_snd_eq_map, List.getElem?_map, hi]
  rfl

/- The claims. -/

/-- C1: if an identity has a recorded start timestamp s in a timer, stays
absent from the input of any number of further update calls, and then
reappears in the input of a call at time t, the duration returned for it at
reappearance is t - s, measured from the original start timestamp: the
timer is not reset by the gap. -/
theorem no_reset_on_gap (tm : Timer) (tid : ℤ) (s : ℚ)
    (gaps : List (ℚ × List ℤ)) (t : ℚ) (ids : List ℤ) (i : ℕ)
    (hstart : lookupStart tm.tracker_id2start_time tid = some s)
    (hgap : ∀ c ∈ gaps, tid ∉ c.2)
    (hid : ids[i]? = some tid) :
    ((runCalls tm gaps).update_with_detections t ids).2[i]? = some (t - s) := by
  have hpres : lookupStart (runCalls tm gaps).tracker_id2start_time tid = some s := by
    rw [lookupStart_runCalls_notmem gaps tm hgap]
    exact hstart
  show (updateLoop (runCalls tm gaps).tracker_id2start_time t ids).2[i]? = _
  rw [updateLoop_snd_getElem t ids _ hid, hpres]
  rfl

/-- C1 witness: first seen at time 0, absent from the call at time 5,
present again at time 10: the duration reported at time 10 is 10, not 0. -/
theorem no_reset_on_gap_witness :
    ((runCalls ⟨[(7, 0)]⟩ [(5, [])]).update_with_detections 10 [7]).2[0]? = some 10 := by
  have h := no_reset_on_gap ⟨[(7, 0)]⟩ 7 0 [(5, [])] 10 [7] 0 (by decide)
    (by decide) (by decide)
  exact h.trans (by norm_num)

/-- C2: the start timestamp of an identity is set exactly once: a call
whose input contains an identity that has no stored start timestamp stores
the current time for it, and a call on a timer that already stores a start
timestamp for the identity leaves that timestamp exactly as it was. -/
theorem start_time_set_once (tm : Timer) (now : ℚ) (ids : List ℤ) (tid : ℤ) :
    (lookupStart tm.tracker_id2start_time tid = none → tid ∈ ids →
      lookupStart ((tm.update_with_detections now ids).1).tracker_id2start_time tid
        = some now) ∧
    (∀ s, lookupStart tm.tracker_id2start_time tid = some s →
      lookupStart ((tm.update_with_detections now ids).1).tracker_id2start_time tid
        = some s) := by
  constructor
  · intro h hmem
    exact lookupStart_updateLoop_of_none_mem now ids _ h hmem
  · intro s h
    exact lookupStart_updateLoop_of_some now ids _ h

/-- C2 witness: a fresh identity 3 is inserted with the call time 0, and a
later call at time 5 that also contains 3 keeps the stored start time 1 of
a timer that already holds (3, 1). -/
theorem start_time_set_once_witness :
    lookupStart (((Timer.mk []).update_with_detections 0 [3]).1).tracker_id2start_time 3
      = some 0 ∧
    lookupStart (((Timer.mk [(3, 1)]).update_with_detections 5 [3]).1).tracker_id2start_time 3
      = some 1 :=
  ⟨(start_time_set_once ⟨[]⟩ 0 [3] 3).1 (by decide) (by decide),
    (start_time_set_once ⟨[(3, 1)]⟩ 5 [3] 3).2 1 (by decide)⟩

/-- C3: durations are exact: a call at time now reports now - s for an
identity stored with start s, at every input position holding it; an
identity with no stored start is inserted with start now and the call
reports 0 for it; once first seen at time t1, any later call at time ti,
after any further calls, reports ti - t1 for it; and for an identity stored
with start t1, the durations reported at two times tA at most tB are in the
same order, so the duration is monotone in the clock. -/
theorem update_elapsed_exact (tm : Timer) (now : ℚ) (ids : List ℤ) (tid : ℤ) :
    (∀ (s : ℚ) (i : ℕ), lookupStart tm.tracker_id2start_time tid = some s →
      ids[i]? = some tid →
      (tm.update_with_detections now ids).2[i]? = some (now - s)) ∧
    (lookupStart tm.tracker_id2start_time tid = none → tid ∈ ids →
      lookupStart ((tm.update_with_detections now ids).1).tracker_id2start_time tid
        = some now) ∧
    (∀ (i : ℕ), lookupStart tm.tracker_id2start_time tid = none →
      ids[i]? = some tid →
      (tm.update_with_detections now ids).2[i]? = some 0) ∧
    (∀ (t1 : ℚ) (ids1 : List ℤ) (calls : List (ℚ × List ℤ)) (ti : ℚ)
        (idsi : List ℤ) (i : ℕ),
      lookupStart tm.tracker_id2start_time tid = none → tid ∈ ids1 →
      idsi[i]? = some tid →
      ((runCalls ((tm.update_with_detections t1 ids1).1) calls).update_with_detections
          ti idsi).2[i]? = some (ti - t1)) ∧
    (∀ (t1 : ℚ) (calls1 calls2 : List (ℚ × List ℤ)) (tA tB : ℚ) (iA iB : ℕ)
        (idsA idsB : List ℤ) (eA eB : ℚ),
      lookupStart tm.tracker_id2start_time tid = some t1 → tA ≤ tB →
      idsA[iA]? = some tid → idsB[iB]? = some tid →
      ((runCalls tm calls1).update_with_detections tA idsA).2[iA]? = some eA →
      ((runCalls tm calls2).update_with_detections tB idsB).2[iB]? = some eB →
      eA ≤ eB) := by
  refine ⟨?_, ?_, ?_, ?_, ?_⟩
  · intro s i h hid
    show (updateLoop tm.tracker_id2start_time now ids).2[i]? = _
    rw [updateLoop_snd_getElem now ids _ hid, h]
    rfl
  · intro h hmem
    exact lookupStart_updateLoop_of_none_mem now ids _ h hmem
  · intro i h hid
    show (updateLoop tm.tracker_id2start_time now ids).2[i]? = _
    rw [updateLoop_snd_getElem now ids _ hid, h]
    simp
  · intro t1 ids1 calls ti idsi i h hmem hid
    have h1 : lookupStart
        ((tm.update_with_detections t1 ids1).1).tracker_id2start_time tid
        = some t1 :=
      lookupStart_updateLoop_of_none_mem t1 ids1 _ h hmem
    have hpres := lookupStart_runCalls_of_some calls _ h1
    show (updateLoop
        (runCalls ((tm.update_with_detections t1 ids1).1) calls).tracker_id2start_time
        ti idsi).2[i]? = _
    rw [updateLoop_snd_getElem ti idsi _ hid, hpres]
    rfl
  · intro t1 calls1 calls2 tA tB iA iB idsA idsB eA eB h htAB hidA hidB heA heB
    have hp1 := lookupStart_runCalls_of_some calls1 tm h
    have hp2 := lookupStart_runCalls_of_some calls2 tm h
    have e1 : ((runCalls tm calls1).update_with_detections tA idsA).2[iA]?
        = some (tA - t1) := by
      show (updateLoop (runCalls tm calls1).tracker_id2start_time tA idsA).2[iA]? = _
      rw [updateLoop_snd_getElem tA idsA _ hidA, hp1]
      rfl
    have e2 : ((runCalls tm calls2).update_with_detections tB idsB).2[iB]?
        = some (tB - t1) := by
      show (updateLoop (runCalls tm calls2).tracker_id2start_time tB idsB).2[iB]? = _
      rw [updateLoop_snd_getElem tB idsB _ hidB, hp2]
      rfl
    have hA2 : eA = tA - t1 := Option.some_injective _ (heA.symm.trans e1)
    have hB2 : eB = tB - t1 := Option.some_injective _ (heB.symm.trans e2)
    rw [hA2, hB2]
    exact sub_le_sub_right htAB t1

/-- C3 witness: on the timer holding (2, 1), a call at time 5 with input
[9, 2] reports 5 - 1 = 4 for identity 2 and 0 for the fresh identity 9,
which is stored with start 5; an identity first seen at time 1 reports
3 - 1 = 2 at time 3 after an intermediate call; durations at times 5 and 7
are in order, 4 at most 6. -/
theorem update_elapsed_exact_witness :
    ((Timer.mk [(2, 1)]).update_with_detections 5 [9, 2]).2[1]? = some 4 ∧
    lookupStart (((Timer.mk [(2, 1)]).update_with_detections 5 [9, 2]).1).tracker_id2start_time 9
      = some 5 ∧
    ((Timer.mk [(2, 1)]).update_with_detections 5 [9, 2]).2[0]? = some 0 ∧
    ((runCalls (((Timer.mk []).update_with_detections 1 [4]).1) [(2, [4])]).update_with_detections
        3 [4]).2[0]? = some 2 ∧
    ((4 : ℚ) ≤ 6) := by
  refine ⟨?_, ?_, ?_, ?_, ?_⟩
  · exact ((update_elapsed_exact ⟨[(2, 1)]⟩ 5 [9, 2] 2).1 1 1 (by decide)
      (by decide)).trans (by norm_num)
  · exact (update_elapsed_exact ⟨[(2, 1)]⟩ 5 [9, 2] 9).2.1 (by decide) (by decide)
  · exact (update_elapsed_exact ⟨[(2, 1)]⟩ 5 [9, 2] 9).2.2.1 0 (by decide) (by decide)
  · exact ((update_elapsed_exact ⟨[]⟩ 1 [4] 4).2.2.2.1 1 [4] [(2, [4])] 3 [4] 0
      (by decide) (by decide) (by decide)).trans (by norm_num)
  · refine (update_elapsed_exact ⟨[(2, 1)]⟩ 5 [9, 2] 2).2.2.2.2 1 [] [] 5 7 1 1
      [9, 2] [9, 2] 4 6 (by decide) (by norm_num) (by decide) (by decide) ?_ ?_
    · exact ((update_elapsed_exact ⟨[(2, 1)]⟩ 5 [9, 2] 2).1 1 1 (by decide)
        (by decide)).trans (by norm_num)
    · exact ((update_elapsed_exact ⟨[(2, 1)]⟩ 7 [9, 2] 2).1 1 1 (by decide)
        (by decide)).trans (by norm_num)

/-- C4: an update call does not modify any stored entry: the lookup of an
identity not in the input is unchanged, the new dict extends the old dict
as an initial segment, every stored start timestamp survives the call with
the same
value, and across any sequence of calls the dict never shrinks. -/
theorem untouched_and_never_purged (tm : Timer) (now : ℚ) (ids : List ℤ) :
    (∀ tid, tid ∉ ids →
      lookupStart ((tm.update_with_detections now ids).1).tracker_id2start_time tid
        = lookupStart tm.tracker_id2start_time tid) ∧
    (∃ ext, ((tm.update_with_detections now ids).1).tracker_id2start_time
        = tm.tracker_id2start_time ++ ext) ∧
    (∀ tid s, lookupStart tm.tracker_id2start_time tid = some s →
      lookupStart ((tm.update_with_detections now ids).1).tracker_id2start_time tid
        = some s) ∧
    (∀ calls : List (ℚ × List ℤ),
      tm.tracker_id2start_time.length
        ≤ (runCalls tm calls).tracker_id2start_time.length) := by
  refine ⟨?_, ?_, ?_, ?_⟩
  · intro tid hmem
    exact lookupStart_updateLoop_notmem now ids _ hmem
  · exact updateLoop_fst_append now ids _
  · intro tid s h
    exact lookupStart_updateLoop_of_some now ids _ h
  · intro calls
    exact runCalls_length_le calls tm

/-- C4 witness: on the timer holding (1, 0), a call at time 5 with input
[3] leaves the absent identity 9 and the stored entry for 1 unchanged. -/
theorem untouched_and_never_purged_witness :
    lookupStart (((Timer.mk [(1, 0)]).update_with_detections 5 [3]).1).tracker_id2start_time 9
      = lookupStart (Timer.mk [(1, 0)]).tracker_id2start_time 9 ∧
    lookupStart (((Timer.mk [(1, 0)]).update_with_detections 5 [3]).1).tracker_id2start_time 1
      = some 0 :=
  ⟨(untouched_and_never_purged ⟨[(1, 0)]⟩ 5 [3]).1 9 (by decide),
    (untouched_and_never_purged ⟨[(1, 0)]⟩ 5 [3]).2.2.1 1 0 (by decide)⟩

/-- C5: under the monotonic-clock invariant, that every start timestamp
stored in the timer is at most the current clock reading, every duration
returned by an update call is nonnegative, and every start timestamp stored
after the call is still at most that reading, so a monotone sequence of
calls keeps the invariant and never yields a negative duration; identities
are inserted before their duration is read, so a fresh identity reports 0. -/
theorem elapsed_nonneg (tm : Timer) (now : ℚ) (ids : List ℤ)
    (hmono : ∀ tid s, lookupStart tm.tracker_id2start_time tid = some s → s ≤ now) :
    (∀ e ∈ (tm.update_with_detections now ids).2, 0 ≤ e) ∧
    (∀ tid s,
      lookupStart ((tm.update_with_detections now ids).1).tracker_id2start_time tid
        = some s → s ≤ now) := by
  constructor
  · intro e he
    have hsnd : (tm.update_with_detections now ids).2
        = ids.map (fun tid => now - ((lookupStart tm.tracker_id2start_time tid).getD now)) :=
      updateLoop_snd_eq_map now ids _
    rw [hsnd] at he
    obtain ⟨tid, _, rfl⟩ := List.mem_map.mp he
    rcases h : lookupStart tm.tracker_id2start_time tid with _ | s
    · simp [h]
    · rw [Option.getD_some]
      exact sub_nonneg.mpr (hmono tid s h)
  · intro tid s hs
    have hs2 : lookupStart (updateLoop tm.tracker_id2start_time now ids).1 tid
        = some s := hs
    rcases h0 : lookupStart tm.tracker_id2start_time tid with _ | s0
    · by_cases hmem : tid ∈ ids
      · rw [lookupStart_updateLoop_of_none_mem now ids _ h0 hmem] at hs2
        exact le_of_eq (Option.some_injective _ hs2).symm
      · rw [lookupStart_updateLoop_of_none_notmem now ids _ h0 hmem] at hs2
        cases hs2
    · rw [lookupStart_updateLoop_of_some now ids _ h0] at hs2
      exact (Option.some_injective _ hs2) ▸ hmono tid s0 h0

/-- C5 witness: on the timer holding (1, 2), whose only start is at most
the reading 5, the call at time 5 with input [1, 4] reports the
nonnegative duration 3 at position 0, and the start stored for the fresh
identity 4 is 5, still at most the reading. -/
theorem elapsed_nonneg_witness :
    ((Timer.mk [(1, 2)]).update_with_detections 5 [1, 4]).2[0]? = some 3 ∧
    (0 : ℚ) ≤ 3 ∧ (5 : ℚ) ≤ 5 := by
  have hmono : ∀ tid s, lookupStart (Timer.mk [(1, 2)]).tracker_id2start_time tid
      = some s → s ≤ 5 := by
    intro tid s h
    by_cases h1 : (1 : ℤ) = tid
    · rw [show lookupStart (Timer.mk [(1, 2)]).tracker_id2start_time tid
          = if (1 : ℤ) = tid then some 2 else none from rfl, if_pos h1] at h
      rw [← Option.some_injective _ h]
      norm_num
    · rw [show lookupStart (Timer.mk [(1, 2)]).tracker_id2start_time tid
          = if (1 : ℤ) = tid then some 2 else none from rfl, if_neg h1] at h
      cases h
  refine ⟨?_, ?_, ?_⟩
  · exact ((update_elapsed_exact ⟨[(1, 2)]⟩ 5 [1, 4] 1).1 2 0 (by decide)
      (by decide)).trans (by norm_num)
  · have h3 : (3 : ℚ) ∈ ((Timer.mk [(1, 2)]).update_with_detections 5 [1, 4]).2 := by
      have hsnd : ((Timer.mk [(1, 2)]).update_with_detections 5 [1, 4]).2
          = [3, 0] := by
        refine (updateLoop_snd_eq_map 5 [1, 4] [(1, 2)]).trans ?_
        norm_num [lookupStart]
      rw [hsnd]
      exact List.mem_cons_self _ _
    exact (elapsed_nonneg ⟨[(1, 2)]⟩ 5 [1, 4] hmono).1 3 h3
  · exact (elapsed_nonneg ⟨[(1, 2)]⟩ 5 [1, 4] hmono).2 4 5 (by decide)

/-- C6: the durations array of an update call has exactly one element per
input identity, the element at each index is the duration of the identity
at the same index of the input, and when the input has no duplicate
identities no identity appears twice among the identity-duration pairs of
one call. -/
theorem output_matches_input_order (tm : Timer) (now : ℚ) (ids : List ℤ) :
    (tm.update_with_detections now ids).2.length = ids.length ∧
    (∀ (i : ℕ) (tid : ℤ), ids[i]? = some tid →
      (tm.update_with_detections now ids).2[i]?
        = some (now - ((lookupStart tm.tracker_id2start_time tid).getD now))) ∧
    (ids.Nodup →
      (List.map Prod.fst (ids.zip (tm.update_with_detections now ids).2)).Nodup) := by
  have hsnd : (tm.update_with_detections now ids).2
      = ids.map (fun tid => now - ((lookupStart tm.tracker_id2start_time tid).getD now)) :=
    updateLoop_snd_eq_map now ids _
  refine ⟨?_, ?_, ?_⟩
  · rw [hsnd, List.length_map]
  · intro i tid hid
    exact updateLoop_snd_getElem now ids _ hid
  · intro hnd
    have hlen : ids.length ≤ (tm.update_with_detections now ids).2.length := by
      rw [hsnd, List.length_map]
    rw [List.map_fst_zip _ _ hlen]
    exact hnd

/-- C6 witness: on the fresh timer, the call at time 2 with input [5, 6]
yields two durations, the one at position 1 is the duration 0 of identity
6, and the identities of the pairs, 5 and 6, hold no duplicate. -/
theorem output_matches_input_order_witness :
    ((Timer.mk []).update_with_detections 2 [5, 6]).2.length = 2 ∧
    ((Timer.mk []).update_with_detections 2 [5, 6]).2[1]? = some 0 ∧
    (List.map Prod.fst (([5, 6] : List ℤ).zip
      ((Timer.mk []).update_with_detections 2 [5, 6]).2)).Nodup := by
  refine ⟨?_, ?_, ?_⟩
  · exact (output_matches_input_order ⟨[]⟩ 2 [5, 6]).1
  · exact ((output_matches_input_order ⟨[]⟩ 2 [5, 6]).2.1 1 6 (by decide)).trans
      (by norm_num [lookupStart])
  · exact (output_matches_input_order ⟨[]⟩ 2 [5, 6]).2.2 (by decide)

/-- C7 counterexample: update_with_detections has no error path and does
not reject contract-violating input: the call at time 0 with the duplicate
identity 1 twice in one input returns normally with durations [0, 0], and
the call with the negative identity -1 returns normally with duration [0]
and records -1 like any other identity. -/
theorem no_rejection_counterexample :
    ((Timer.mk []).update_with_detections 0 [1, 1]).2 = [0, 0] ∧
    ((Timer.mk []).update_with_detections 0 [-1]).2 = [0] ∧
    lookupStart (((Timer.mk []).update_with_detections 0 [-1]).1).tracker_id2start_time (-1)
      = some 0 := by
  refine ⟨?_, ?_, ?_⟩ <;>
    norm_num [Timer.update_with_detections, updateLoop, updateStep, lookupStart,
      insertStart]

/-- C7 amended: an update call whose input contains a duplicate identity or
a negative identity is not rejected but processed silently: two input
positions holding the same identity always receive the same duration, an
unseen negative identity in the input is inserted with the current time
like any other, and a stored start timestamp is never overwritten by a
duplicate observation. -/
theorem duplicates_and_negatives_processed (tm : Timer) (now : ℚ) (ids : List ℤ)
    (i j : ℕ) (tid : ℤ) :
    (ids[i]? = some tid → ids[j]? = some tid →
      (tm.update_with_detections now ids).2[i]?
        = (tm.update_with_detections now ids).2[j]?) ∧
    (tid < 0 → tid ∈ ids → lookupStart tm.tracker_id2start_time tid = none →
      lookupStart ((tm.update_with_detections now ids).1).tracker_id2start_time tid
        = some now) ∧
    (∀ s : ℚ, lookupStart tm.tracker_id2start_time tid = some s →
      lookupStart ((tm.update_with_detections now ids).1).tracker_id2start_time tid
        = some s) := by
  refine ⟨?_, ?_, ?_⟩
  · intro hi hj
    have h1 : (tm.update_with_detections now ids).2[i]?
        = some (now - ((lookupStart tm.tracker_id2start_time tid).getD now)) :=
      updateLoop_snd_getElem now ids _ hi
    have h2 : (tm.update_with_detections now ids).2[j]?
        = some (now - ((lookupStart tm.tracker_id2start_time tid).getD now)) :=
      updateLoop_snd_getElem now ids _ hj
    exact h1.trans h2.symm
  · intro _ hmem h
    exact lookupStart_updateLoop_of_none_mem now ids _ h hmem
  · intro s h
    exact lookupStart_updateLoop_of_some now ids _ h

/-- C7 amended witness: both positions of the duplicate input [5, 5] get
the same duration, and the unseen negative identity -1 of the input [-1]
is inserted with the call time 2. -/
theorem duplicates_and_negatives_processed_witness :
    ((Timer.mk []).update_with_detections 3 [5, 5]).2[0]?
      = ((Timer.mk []).update_with_detections 3 [5, 5]).2[1]? ∧
    lookupStart (((Timer.mk []).update_with_detections 2 [-1]).1).tracker_id2start_time (-1)
      = some 2 :=
  ⟨(duplicates_and_negatives_processed ⟨[]⟩ 3 [5, 5] 0 1 5).1 (by decide) (by decide),
    (duplicates_and_negatives_processed ⟨[]⟩ 2 [-1] 0 0 (-1)).2.1 (by decide)
      (by decide) (by decide)⟩

/-- C8: zone timers are independent: the per-frame result list is the
pointwise update of each zone timer with the ids of the detections its own
trigger selects, so the result of a zone is a function of that zone alone;
an identity stored with different start timestamps sA and sB in the timers
of two zones, detected in one frame inside both zones, yields in that frame
the duration now - sA in the first zone and now - sB in the second, and
both stored starts survive the frame unchanged. -/
theorem zone_timers_independent (zA zB : Detection → Bool) (mA mB : Timer)
    (dets : List Detection) (now : ℚ) (tid : ℤ) (sA sB : ℚ) (d : Detection)
    (hA : lookupStart mA.tracker_id2start_time tid = some sA)
    (hB : lookupStart mB.tracker_id2start_time tid = some sB)
    (hd : d ∈ dets) (hdid : d.tracker_id = tid)
    (hzA : zA d = true) (hzB : zB d = true) :
    processFrame [(zA, mA), (zB, mB)] dets now
      = [mA.update_with_detections now ((dets.filter zA).map Detection.tracker_id),
         mB.update_with_detections now ((dets.filter zB).map Detection.tracker_id)] ∧
    (now - sA)
      ∈ (mA.update_with_detections now ((dets.filter zA).map Detection.tracker_id)).2 ∧
    (now - sB)
      ∈ (mB.update_with_detections now ((dets.filter zB).map Detection.tracker_id)).2 ∧
    lookupStart ((mA.update_with_detections now
        ((dets.filter zA).map Detection.tracker_id)).1).tracker_id2start_time tid
      = some sA ∧
    lookupStart ((mB.update_with_detections now
        ((dets.filter zB).map Detection.tracker_id)).1).tracker_id2start_time tid
      = some sB := by
  have hmemA : tid ∈ (dets.filter zA).map Detection.tracker_id :=
    List.mem_map.mpr ⟨d, List.mem_filter.mpr ⟨hd, hzA⟩, hdid⟩
  have hmemB : tid ∈ (dets.filter zB).map Detection.tracker_id :=
    List.mem_map.mpr ⟨d, List.mem_filter.mpr ⟨hd, hzB⟩, hdid⟩
  refine ⟨rfl, ?_, ?_, ?_, ?_⟩
  · have hsnd : (mA.update_with_detections now
        ((dets.filter zA).map Detection.tracker_id)).2
        = ((dets.filter zA).map Detection.tracker_id).map
          (fun t => now - ((lookupStart mA.tracker_id2start_time t).getD now)) :=
      updateLoop_snd_eq_map now _ _
    rw [hsnd]
    exact List.mem_map.mpr ⟨tid, hmemA, by rw [hA]; rfl⟩
  · have hsnd : (mB.update_with_detections now
        ((dets.filter zB).map Detection.tracker_id)).2
        = ((dets.filter zB).map Detection.tracker_id).map
          (fun t => now - ((lookupStart mB.tracker_id2start_time t).getD now)) :=
      updateLoop_snd_eq_map now _ _
    rw [hsnd]
    exact List.mem_map.mpr ⟨tid, hmemB, by rw [hB]; rfl⟩
  · exact lookupStart_updateLoop_of_some now _ _ hA
  · exact lookupStart_updateLoop_of_some now _ _ hB

/-- C8 witness: identity 1 is stored with start 0 in the timer of the first
zone and with start 3 in the timer of the second; the frame at time 10 with
the single detection of identity 1 at (5, 5), inside both zones, reports
duration 10 in the first zone and 7 in the second, and both starts are kept. -/
theorem zone_timers_independent_witness :
    ((10 : ℚ) - 0)
      ∈ ((Timer.mk [(1, 0)]).update_with_detections 10
        ((([⟨1, 5, 5, 2⟩] : List Detection).filter
          (fun p => decide (p.x ≤ 10))).map Detection.tracker_id)).2 ∧
    ((10 : ℚ) - 3)
      ∈ ((Timer.mk [(1, 3)]).update_with_detections 10
        ((([⟨1, 5, 5, 2⟩] : List Detection).filter
          (fun p => decide (p.y ≤ 10))).map Detection.tracker_id)).2 ∧
    lookupStart (((Timer.mk [(1, 3)]).update_with_detections 10
        ((([⟨1, 5, 5, 2⟩] : List Detection).filter
          (fun p => decide (p.y ≤ 10))).map Detection.tracker_id)).1).tracker_id2start_time 1
      = some 3 := by
  have h := zone_timers_independent (fun p => decide (p.x ≤ 10))
    (fun p => decide (p.y ≤ 10)) ⟨[(1, 0)]⟩ ⟨[(1, 3)]⟩ [⟨1, 5, 5, 2⟩] 10 1 0 3
    ⟨1, 5, 5, 2⟩ (by decide) (by decide) (List.mem_singleton.mpr rfl) rfl
    (by norm_num) (by norm_num)
  exact ⟨h.2.1, h.2.2.1, h.2.2.2.2⟩

/-- C9: a frame with zero tracked detections is valid and yields the empty
result in every zone: each zone filter selects the empty in-zone subset,
each duration array is empty, and every timer is returned unchanged. -/
theorem empty_frame_empty_results (zoneTimers : List ((Detection → Bool) × Timer))
    (now : ℚ) :
    processFrame zoneTimers [] now = zoneTimers.map (fun zt => (zt.2, [])) := rfl

/-- C10: one update call uses a single clock reading: two identities with
no stored start, both present in the input of a call at time now, are both
stored with the identical start timestamp now, and in any later call in
which both appear, after any further calls, their reported durations are
equal. -/
theorem single_clock_reading_per_call (tm : Timer) (now : ℚ) (ids : List ℤ)
    (tid1 tid2 : ℤ)
    (h1 : lookupStart tm.tracker_id2start_time tid1 = none)
    (h2 : lookupStart tm.tracker_id2start_time tid2 = none)
    (hm1 : tid1 ∈ ids) (hm2 : tid2 ∈ ids) :
    lookupStart ((tm.update_with_detections now ids).1).tracker_id2start_time tid1
      = some now ∧
    lookupStart ((tm.update_with_detections now ids).1).tracker_id2start_time tid2
      = some now ∧
    (∀ (calls : List (ℚ × List ℤ)) (t : ℚ) (later : List ℤ) (i j : ℕ),
      later[i]? = some tid1 → later[j]? = some tid2 →
      ((runCalls (tm.update_with_detections now ids).1 calls).update_with_detections
          t later).2[i]?
        = ((runCalls (tm.update_with_detections now ids).1 calls).update_with_detections
          t later).2[j]?) := by
  have ha : lookupStart ((tm.update_with_detections now ids).1).tracker_id2start_time tid1
      = some now := lookupStart_updateLoop_of_none_mem now ids _ h1 hm1
  have hb : lookupStart ((tm.update_with_detections now ids).1).tracker_id2start_time tid2
      = some now := lookupStart_updateLoop_of_none_mem now ids _ h2 hm2
  refine ⟨ha, hb, ?_⟩
  intro calls t later i j hi hj
  have hp1 := lookupStart_runCalls_of_some calls _ ha
  have hp2 := lookupStart_runCalls_of_some calls _ hb
  have e1 : ((runCalls (tm.update_with_detections now ids).1 calls).update_with_detections
      t later).2[i]? = some (t - now) := by
    show (updateLoop (runCalls (tm.update_with_detections now ids).1 calls).tracker_id2start_time
        t later).2[i]? = _
    rw [updateLoop_snd_getElem t later _ hi, hp1]
    rfl
  have e2 : ((runCalls (tm.update_with_detections now ids).1 calls).update_with_detections
      t later).2[j]? = some (t - now) := by
    show (updateLoop (runCalls (tm.update_with_detections now ids).1 calls).tracker_id2start_time
        t later).2[j]? = _
    rw [updateLoop_snd_getElem t later _ hj, hp2]
    rfl
  exact e1.trans e2.symm

/-- C10 witness: the fresh identities 4 and 5 of the call at time 1 both
get start 1, and the call at time 3 after an intermediate call reports the
same duration for both. -/
theorem single_clock_reading_per_call_witness :
    lookupStart (((Timer.mk []).update_with_detections 1 [4, 5]).1).tracker_id2start_time 4
      = some 1 ∧
    lookupStart (((Timer.mk []).update_with_detections 1 [4, 5]).1).tracker_id2start_time 5
      = some 1 ∧
    ((runCalls (((Timer.mk []).update_with_detections 1 [4, 5]).1) [(2, [9])]).update_with_detections
        3 [4, 5]).2[0]?
      = ((runCalls (((Timer.mk []).update_with_detections 1 [4, 5]).1) [(2, [9])]).update_with_detections
        3 [4, 5]).2[1]? := by
  have h := single_clock_reading_per_call ⟨[]⟩ 1 [4, 5] 4 5 (by decide) (by decide)
    (by decide) (by decide)
  exact ⟨h.1, h.2.1, h.2.2 [(2, [9])] 3 [4, 5] 0 1 (by decide) (by decide)⟩

end AIimgTimeInZone
